import Mathlib

/-!
Verification of the core logic of `ssh_gui_manager.py`: the profile data
model, JSON persistence (`load_profiles` / `save_profiles`), the command
builder (`build_ssh_command`), terminal discovery
(`pick_terminal_command`), and the catalogue operations (`duplicate`,
`add`).

Shallow embedding conventions:
- Python `int` is `Int` (unbounded).
- Python string truthiness (`if s:`) is `s ≠ ""`; integer truthiness is `≠ 0`.
- `str.strip()` is modelled by `strip` below, over the ASCII whitespace
  characters recognised by `Char.isWhitespace` (Python also strips some
  further Unicode whitespace; no claim here depends on those).
- JSON documents are modelled by the value tree `JVal`. JSON floats are
  not modelled (no claim involves them). `json.loads` keeps the last of
  any duplicate object keys, so parsed objects have unique keys and a
  first-match lookup is faithful.
-/

/-- `SSHProfile` dataclass: field names, types and defaults as in the source. -/
structure SSHProfile where
  name : String
  host : String
  user : String := ""
  port : Int := 22
  identity_file : String := ""
  jump_host : String := ""
  extra_args : String := ""
deriving Repr, DecidableEq

/-- Leading and trailing whitespace removal on the character list. -/
def stripList (l : List Char) : List Char :=
  ((l.dropWhile Char.isWhitespace).reverse.dropWhile Char.isWhitespace).reverse

/-- Python `str.strip()`: remove leading and trailing whitespace. -/
def strip (s : String) : String :=
  String.mk (stripList s.toList)

/-- The `parts` list assembled by `build_ssh_command` before joining
(the source builds exactly this `List[str]` by successive appends). -/
def build_ssh_tokens (p : SSHProfile) : List String :=
  let parts : List String := ["ssh"]
  let parts := if p.port ≠ 0 then parts ++ ["-p", toString p.port] else parts
  let parts := if p.identity_file ≠ "" then parts ++ ["-i", p.identity_file] else parts
  let parts := if p.jump_host ≠ "" then parts ++ ["-J", p.jump_host] else parts
  let parts := if p.extra_args ≠ "" then parts ++ [p.extra_args] else parts
  let target := if p.user ≠ "" then p.user ++ "@" ++ p.host else p.host
  parts ++ [target]

/-- `build_ssh_command`: `" ".join(parts)`. -/
def build_ssh_command (p : SSHProfile) : String :=
  String.intercalate " " (build_ssh_tokens p)

/-- Normal form of the token list: the sequential appends of the source,
flattened into one concatenation of optional segments. -/
theorem build_tokens_eq (p : SSHProfile) :
    build_ssh_tokens p
      = ["ssh"]
        ++ (if p.port ≠ 0 then ["-p", toString p.port] else [])
        ++ (if p.identity_file ≠ "" then ["-i", p.identity_file] else [])
        ++ (if p.jump_host ≠ "" then ["-J", p.jump_host] else [])
        ++ (if p.extra_args ≠ "" then [p.extra_args] else [])
        ++ [if p.user ≠ "" then p.user ++ "@" ++ p.host else p.host] := by
  simp only [build_ssh_tokens]
  split_ifs <;> simp

/-- C1 (counterexample): the claim says profile
`{name="x", host="h", user="", port=22}` builds to `"ssh h"`, but
`build_ssh_command` guards the port flag only by truthiness (`if p.port:`),
so port 22 still emits `-p 22` and the build is `"ssh -p 22 h"`. -/
theorem build_port22_not_omitted :
    build_ssh_command { name := "x", host := "h", user := "", port := 22 } ≠ "ssh h" ∧
    build_ssh_command { name := "x", host := "h", user := "", port := 22 } = "ssh -p 22 h" := by
  constructor <;> decide

/-- C1 (amended): for every truthy (nonzero) port — port 22 included — the
pair `-p <port>` appears verbatim among the built tokens; the port flag is
omitted only for a falsy (zero) port. In particular
`{name="x", host="h", user="", port=22}` builds to `"ssh -p 22 h"`, and the
same profile with port 0 builds to `"ssh h"`. -/
theorem build_port_flag :
    (∀ p : SSHProfile, p.port ≠ 0 → ["-p", toString p.port] <:+: build_ssh_tokens p) ∧
    build_ssh_command { name := "x", host := "h", user := "", port := 22 } = "ssh -p 22 h" ∧
    build_ssh_command { name := "x", host := "h", user := "", port := 0 } = "ssh h" := by
  refine ⟨?_, by decide, by decide⟩
  intro p hp
  rw [build_tokens_eq, if_pos hp]
  exact ⟨["ssh"], _, rfl⟩

/-- C1 witness. -/
theorem build_port_flag_witness :
    ((2222 : Int) ≠ 0) ∧
      ["-p", toString (2222 : Int)] <:+:
        build_ssh_tokens { name := "x", host := "h", user := "", port := 2222 } :=
  ⟨by decide, build_port_flag.1 { name := "x", host := "h", user := "", port := 2222 } (by decide)⟩

/-- C2: the builder emits, in order: `ssh`; `-p <port>` when the port is
truthy; `-i <identity_file>` when non-empty; `-J <jump_host>` when
non-empty; `extra_args` as one raw token when non-empty; then `user@host`
(or bare `host` when `user` is empty); joined by single spaces. The
concrete profile of the spec scenario builds to
`"ssh -p 2222 -i /home/a/.ssh/id -A alice@10.0.0.5"`. -/
theorem build_token_order :
    (∀ p : SSHProfile, build_ssh_command p = String.intercalate " "
      (["ssh"]
        ++ (if p.port ≠ 0 then ["-p", toString p.port] else [])
        ++ (if p.identity_file ≠ "" then ["-i", p.identity_file] else [])
        ++ (if p.jump_host ≠ "" then ["-J", p.jump_host] else [])
        ++ (if p.extra_args ≠ "" then [p.extra_args] else [])
        ++ [if p.user ≠ "" then p.user ++ "@" ++ p.host else p.host])) ∧
    build_ssh_command
        { name := "web1", host := "10.0.0.5", user := "alice", port := 2222,
          identity_file := "/home/a/.ssh/id", jump_host := "", extra_args := "-A" }
      = "ssh -p 2222 -i /home/a/.ssh/id -A alice@10.0.0.5" := by
  refine ⟨?_, by decide⟩
  intro p
  rw [build_ssh_command, build_tokens_eq]

/-- JSON values as decoded by `json.loads` (floats not modelled; no claim
involves them). -/
inductive JVal where
  | jnull
  | jbool (b : Bool)
  | jint (n : Int)
  | jstr (s : String)
  | jarr (xs : List JVal)
  | jobj (fields : List (String × JVal))

/-- `item.get(k, default)` on a decoded JSON object (keys are unique after
`json.loads`, which keeps the last duplicate, so first-match lookup is
faithful). -/
def jget (fields : List (String × JVal)) (k : String) (default : JVal) : JVal :=
  match fields.lookup k with
  | some v => v
  | none => default

/-- `v.strip()` on a decoded value: only `str` has `.strip()`; any other
type raises `AttributeError`, which the `except` in `load_profiles`
turns into an empty result. -/
def asStrippedStr : JVal → Option String
  | .jstr s => some (strip s)
  | _ => none

/-- Digit-string to number (ASCII digits only; Python also accepts
underscore separators and non-ASCII digits, which no claim involves). -/
def digitsToNat (cs : List Char) : Option Nat :=
  if cs = [] then none
  else if cs.all Char.isDigit then
    some (cs.foldl (fun acc c => acc * 10 + (c.toNat - 48)) 0)
  else none

/-- Python `int(s)` on a string: surrounding whitespace ignored, optional
sign, then digits; anything else raises `ValueError`. -/
def parseIntStr (s : String) : Option Int :=
  match (strip s).toList with
  | [] => none
  | c :: cs =>
    if c = '-' then (digitsToNat cs).map (fun n => -(n : Int))
    else if c = '+' then (digitsToNat cs).map (fun n => (n : Int))
    else (digitsToNat (c :: cs)).map (fun n => (n : Int))

/-- Python `int(v)` on a decoded JSON value: ints pass through, booleans
coerce (bool is an int subclass), strings parse, anything else raises
`TypeError`. -/
def pyInt : JVal → Option Int
  | .jint n => some n
  | .jbool b => some (if b then 1 else 0)
  | .jstr s => parseIntStr s
  | _ => none

/-- One iteration of the load loop: build an `SSHProfile` from one decoded
item, `None` standing for the exceptions (`AttributeError` on a non-str
field, `ValueError`/`TypeError` from `int`, non-dict item) that abort the
whole load. -/
def parseItem : JVal → Option SSHProfile
  | .jobj fields => do
    let name ← asStrippedStr (jget fields "name" (.jstr ""))
    let host ← asStrippedStr (jget fields "host" (.jstr ""))
    let user ← asStrippedStr (jget fields "user" (.jstr ""))
    let port ← pyInt (jget fields "port" (.jint 22))
    let identity_file ← asStrippedStr (jget fields "identity_file" (.jstr ""))
    let jump_host ← asStrippedStr (jget fields "jump_host" (.jstr ""))
    let extra_args ← asStrippedStr (jget fields "extra_args" (.jstr ""))
    some { name, host, user, port, identity_file, jump_host, extra_args }
  | _ => none

/-- The `for item in data` loop of `load_profiles`: an exception at any
item discards everything built so far. -/
def parseItems : List JVal → Option (List SSHProfile)
  | [] => some []
  | item :: rest => do
    let p ← parseItem item
    let ps ← parseItems rest
    some (p :: ps)

/-- State of the persisted `profiles.json`: missing, present but not valid
JSON, or decoded to a JSON value. -/
inductive FileState where
  | absent
  | invalidJson
  | parsed (doc : JVal)

/-- `load_profiles`. A decoded document that is not an array yields `[]` in
Python too: iterating a dict or str feeds non-dict items to `item.get`
(`AttributeError`), iterating a number raises `TypeError`, and an empty
dict runs the loop zero times — every case returns `[]`. -/
def load_profiles (fs : FileState) : List SSHProfile :=
  match fs with
  | .absent => []
  | .invalidJson => []
  | .parsed doc =>
    match doc with
    | .jarr items =>
      match parseItems items with
      | some out => out.filter (fun p => p.name != "" && p.host != "")
      | none => []
    | _ => []

/-- `asdict(p)`: the dataclass as a JSON object, fields in declaration
order. -/
def asdict (p : SSHProfile) : JVal :=
  .jobj [("name", .jstr p.name), ("host", .jstr p.host), ("user", .jstr p.user),
         ("port", .jint p.port), ("identity_file", .jstr p.identity_file),
         ("jump_host", .jstr p.jump_host), ("extra_args", .jstr p.extra_args)]

/-- `save_profiles`: the JSON document written to `DATA_FILE`
(`json.dumps` is the assumed-correct codec; we keep the value tree). -/
def save_profiles (profiles : List SSHProfile) : JVal :=
  .jarr (profiles.map asdict)

/-- C4: every profile returned by `load_profiles` has non-empty name and
host; records missing either are silently dropped, never repaired. In
particular a document with one valid record and one record with an empty
host loads to exactly the valid record (whose absent optional fields take
the defaults). -/
theorem load_drops_invalid :
    (∀ (fs : FileState), ∀ p ∈ load_profiles fs, p.name ≠ "" ∧ p.host ≠ "") ∧
    load_profiles (.parsed (.jarr
      [.jobj [("name", .jstr "alpha"), ("host", .jstr "a.example")],
       .jobj [("name", .jstr "beta"), ("host", .jstr "")]]))
    = [{ name := "alpha", host := "a.example" }] := by
  refine ⟨?_, by decide⟩
  intro fs p hp
  rcases fs with _ | _ | doc
  · simp [load_profiles] at hp
  · simp [load_profiles] at hp
  · rcases doc with _ | b | n | s | items | fields
    case jarr =>
      simp only [load_profiles] at hp
      cases h : parseItems items with
      | none => rw [h] at hp; simp at hp
      | some out =>
        rw [h] at hp
        have hb := (List.mem_filter.mp hp).2
        simp only [Bool.and_eq_true, bne_iff_ne, ne_eq] at hb
        exact hb
    all_goals simp [load_profiles] at hp

/-- C4 witness. -/
theorem load_drops_invalid_witness :
    { name := "alpha", host := "a.example" : SSHProfile }.name ≠ "" ∧
    { name := "alpha", host := "a.example" : SSHProfile }.host ≠ "" :=
  load_drops_invalid.1
    (.parsed (.jarr
      [.jobj [("name", .jstr "alpha"), ("host", .jstr "a.example")],
       .jobj [("name", .jstr "beta"), ("host", .jstr "")]]))
    { name := "alpha", host := "a.example" }
    (by rw [load_drops_invalid.2]; exact List.mem_singleton.mpr rfl)

/-- C5: `load_profiles` never propagates an error: a missing file loads as
the empty collection; an unparsable file (invalid JSON, or JSON that is
not the expected array-of-objects structure) also loads as the empty
collection, indistinguishable from the missing-file case; and one record
whose port cannot be converted to an integer makes the whole load return
the empty collection, even when another record is valid. -/
theorem load_never_errors :
    load_profiles .absent = [] ∧
    load_profiles .invalidJson = [] ∧
    load_profiles (.parsed (.jstr "not the expected structure")) = [] ∧
    load_profiles (.parsed (.jobj [("name", .jstr "alpha")])) = [] ∧
    load_profiles (.parsed (.jarr
      [.jobj [("name", .jstr "alpha"), ("host", .jstr "a.example")],
       .jobj [("name", .jstr "beta"), ("host", .jstr "b.example"),
              ("port", .jstr "twenty-two")]]))
    = [] := by
  refine ⟨rfl, rfl, rfl, rfl, by decide⟩

/-- C10: `load_profiles` applies no range check to the port: a record with
valid (stripped, non-empty) name and host and an integer port is retained
with exactly that port, whatever its value — 0, negative, or above 65535
included. (The 1–65535 range is enforced only by the dialog's spin box.) -/
theorem load_no_port_range_check (nm hv : String) (n : Int)
    (h1 : strip nm = nm) (h2 : strip hv = hv) (h3 : nm ≠ "") (h4 : hv ≠ "") :
    load_profiles (.parsed (.jarr [.jobj
      [("name", .jstr nm), ("host", .jstr hv), ("port", .jint n)]]))
    = [{ name := nm, host := hv, user := "", port := n }] := by
  have hempty : strip "" = "" := rfl
  have hb : (nm != "" && hv != "") = true := by simp [h3, h4]
  simp [load_profiles, parseItems, parseItem, jget, asStrippedStr, pyInt,
    List.lookup, hempty, h1, h2, h3, h4, List.filter, hb]

/-- C10 witness (port −7, far outside 1–65535, is retained verbatim). -/
theorem load_no_port_range_check_witness :
    strip "n" = "n" ∧ strip "h" = "h" ∧ "n" ≠ "" ∧ "h" ≠ "" ∧
    load_profiles (.parsed (.jarr [.jobj
      [("name", .jstr "n"), ("host", .jstr "h"), ("port", .jint (-7))]]))
    = [{ name := "n", host := "h", user := "", port := -7 }] :=
  ⟨by decide, by decide, by decide, by decide,
   load_no_port_range_check "n" "h" (-7) (by decide) (by decide) (by decide) (by decide)⟩

/-- Dropping by a predicate is idempotent. -/
theorem dropWhile_dropWhile_self {α : Type} (p : α → Bool) (l : List α) :
    (l.dropWhile p).dropWhile p = l.dropWhile p := by
  induction l with
  | nil => rfl
  | cons a t ih => cases ha : p a <;> simp [List.dropWhile_cons, ha, ih]

/-- `dropWhile` passes over a final element that fails the predicate. -/
theorem dropWhile_append_singleton {α : Type} {p : α → Bool} {a : α}
    (h : p a = false) (xs : List α) :
    (xs ++ [a]).dropWhile p = xs.dropWhile p ++ [a] := by
  induction xs with
  | nil => simp [List.dropWhile, h]
  | cons x t ih => cases hx : p x <;> simp [List.dropWhile_cons, hx, ih]

/-- `stripList` of a list whose leading whitespace is gone, spelled out. -/
theorem stripList_cons_form {l : List Char} {a : Char} {t : List Char}
    (hY : l.dropWhile Char.isWhitespace = a :: t) (ha : a.isWhitespace = false) :
    stripList l = a :: (t.reverse.dropWhile Char.isWhitespace).reverse := by
  simp [stripList, hY, dropWhile_append_singleton ha]

/-- `stripList` is idempotent. -/
theorem stripList_idem (l : List Char) : stripList (stripList l) = stripList l := by
  cases hY : l.dropWhile Char.isWhitespace with
  | nil => simp [stripList, hY]
  | cons a t =>
    have ha : a.isWhitespace = false := by
      have hne : l.dropWhile Char.isWhitespace ≠ [] := by simp [hY]
      have := List.head_dropWhile_not Char.isWhitespace l hne
      rwa [show (l.dropWhile Char.isWhitespace).head hne = a by simp [hY]] at this
    have hsl := stripList_cons_form hY ha
    have hhead : (stripList l).dropWhile Char.isWhitespace = stripList l := by
      rw [hsl]; exact List.dropWhile_cons_of_neg (by simp [ha])
    have hrev : (stripList l).reverse.dropWhile Char.isWhitespace = (stripList l).reverse := by
      rw [hsl]
      simp only [List.reverse_cons, List.reverse_reverse]
      rw [dropWhile_append_singleton ha, dropWhile_dropWhile_self]
    rw [stripList, hhead, hrev, List.reverse_reverse]

/-- `strip` is idempotent. -/
theorem strip_idem (s : String) : strip (strip s) = strip s := by
  show String.mk (stripList (stripList s.toList)) = String.mk (stripList s.toList)
  rw [stripList_idem]

/-- A string produced by `asStrippedStr` is already stripped. -/
theorem asStrippedStr_strip_fixed {x : JVal} {y : String}
    (h : asStrippedStr x = some y) : strip y = y := by
  cases x <;> simp only [asStrippedStr, Option.some.injEq] at h <;> try exact absurd h (by simp)
  case jstr s => rw [← h]; exact strip_idem s

/-- Every field of a profile built by `parseItem` is already stripped. -/
theorem parseItem_strip_fixed {v : JVal} {p : SSHProfile}
    (h : parseItem v = some p) :
    strip p.name = p.name ∧ strip p.host = p.host ∧ strip p.user = p.user ∧
    strip p.identity_file = p.identity_file ∧ strip p.jump_host = p.jump_host ∧
    strip p.extra_args = p.extra_args := by
  cases v
  case jobj fields =>
    simp only [parseItem, Option.bind_eq_bind', Option.bind_eq_some,
      Option.some.injEq] at h
    obtain ⟨nm, hnm, hv, hhv, us, hus, pt, hpt, idf, hidf, jh, hjh, ea, hea, hp⟩ := h
    subst hp
    exact ⟨asStrippedStr_strip_fixed hnm, asStrippedStr_strip_fixed hhv,
      asStrippedStr_strip_fixed hus, asStrippedStr_strip_fixed hidf,
      asStrippedStr_strip_fixed hjh, asStrippedStr_strip_fixed hea⟩
  all_goals simp [parseItem] at h

/-- Each profile produced by the load loop comes from one decoded item. -/
theorem parseItems_mem {items : List JVal} {out : List SSHProfile}
    (h : parseItems items = some out) :
    ∀ p ∈ out, ∃ v ∈ items, parseItem v = some p := by
  induction items generalizing out with
  | nil =>
    simp only [parseItems, Option.some.injEq] at h
    subst h; simp
  | cons v rest ih =>
    simp only [parseItems, Option.bind_eq_bind', Option.bind_eq_some,
      Option.some.injEq] at h
    obtain ⟨q, hq, qs, hqs, hout⟩ := h
    subst hout
    intro p hp
    rcases List.mem_cons.mp hp with rfl | hp
    · exact ⟨v, List.mem_cons_self v rest, hq⟩
    · obtain ⟨w, hw, hwp⟩ := ih hqs p hp
      exact ⟨w, List.mem_cons_of_mem v hw, hwp⟩

/-- C9: every string field of every loaded profile is stripped of leading
and trailing whitespace; consequently a saved collection that satisfies
the name/host invariant but carries surrounding whitespace in a field is
not reloaded verbatim. -/
theorem load_strips_fields :
    (∀ (fs : FileState), ∀ p ∈ load_profiles fs,
        strip p.name = p.name ∧ strip p.host = p.host ∧ strip p.user = p.user ∧
        strip p.identity_file = p.identity_file ∧ strip p.jump_host = p.jump_host ∧
        strip p.extra_args = p.extra_args) ∧
    load_profiles (.parsed (save_profiles [{ name := "n", host := "h", user := " a " }]))
      ≠ [{ name := "n", host := "h", user := " a " }] := by
  refine ⟨?_, by decide⟩
  intro fs p hp
  rcases fs with _ | _ | doc
  · simp [load_profiles] at hp
  · simp [load_profiles] at hp
  · rcases doc with _ | b | n | s | items | fields
    case jarr =>
      simp only [load_profiles] at hp
      cases h : parseItems items with
      | none => rw [h] at hp; simp at hp
      | some out =>
        rw [h] at hp
        obtain ⟨v, _, hv⟩ := parseItems_mem h p (List.mem_filter.mp hp).1
        exact parseItem_strip_fixed hv
    all_goals simp [load_profiles] at hp

/-- C9 witness. -/
theorem load_strips_fields_witness :
    strip "n" = "n" ∧ strip "h" = "h" ∧ strip "" = "" ∧ strip "" = "" ∧
    strip "" = "" ∧ strip "" = "" :=
  load_strips_fields.1
    (.parsed (.jarr [.jobj [("name", .jstr " n "), ("host", .jstr "h")]]))
    { name := "n", host := "h" } (by decide)

/-- Parsing back the `asdict` image of a profile whose string fields are
already stripped reproduces the profile exactly. -/
theorem parseItem_asdict {p : SSHProfile}
    (h1 : strip p.name = p.name) (h2 : strip p.host = p.host)
    (h3 : strip p.user = p.user) (h4 : strip p.identity_file = p.identity_file)
    (h5 : strip p.jump_host = p.jump_host) (h6 : strip p.extra_args = p.extra_args) :
    parseItem (asdict p) = some p := by
  simp [parseItem, asdict, jget, asStrippedStr, pyInt, List.lookup,
    h1, h2, h3, h4, h5, h6]

/-- The load loop over the saved image of a stripped collection succeeds
and returns the collection itself. -/
theorem parseItems_map_asdict {C : List SSHProfile}
    (h : ∀ p ∈ C, strip p.name = p.name ∧ strip p.host = p.host ∧
      strip p.user = p.user ∧ strip p.identity_file = p.identity_file ∧
      strip p.jump_host = p.jump_host ∧ strip p.extra_args = p.extra_args) :
    parseItems (C.map asdict) = some C := by
  induction C with
  | nil => rfl
  | cons p rest ih =>
    obtain ⟨h1, h2, h3, h4, h5, h6⟩ := h p (List.mem_cons_self p rest)
    have hrest := ih (fun q hq => h q (List.mem_cons_of_mem p hq))
    simp [parseItems, parseItem_asdict h1 h2 h3 h4 h5 h6, hrest]

/-- C3 (counterexample): the collection `[{name="rt", host="rh",
user=" u ", port=22}]` satisfies the claim's hypothesis (non-empty name
and host), yet reloading its saved document does not reproduce it — the
user field comes back stripped to `"u"`. -/
theorem save_load_not_verbatim :
    load_profiles (.parsed (save_profiles [{ name := "rt", host := "rh", user := " u " }]))
      ≠ [{ name := "rt", host := "rh", user := " u " }] := by decide

/-- C3 (amended): for every collection whose entries have non-empty name
and host and whose six string fields carry no surrounding whitespace
(each equals its own strip), loading the saved document reproduces the
collection exactly, field for field and in order; hence saving the
reloaded collection writes the same document again. (With surrounding
whitespace in any field the reload yields the stripped value instead, as
the counterexample shows.) -/
theorem save_load_roundtrip (C : List SSHProfile)
    (h : ∀ p ∈ C, p.name ≠ "" ∧ p.host ≠ "" ∧ strip p.name = p.name ∧
      strip p.host = p.host ∧ strip p.user = p.user ∧
      strip p.identity_file = p.identity_file ∧ strip p.jump_host = p.jump_host ∧
      strip p.extra_args = p.extra_args) :
    load_profiles (.parsed (save_profiles C)) = C ∧
    save_profiles (load_profiles (.parsed (save_profiles C))) = save_profiles C := by
  have hstrip : ∀ p ∈ C, strip p.name = p.name ∧ strip p.host = p.host ∧
      strip p.user = p.user ∧ strip p.identity_file = p.identity_file ∧
      strip p.jump_host = p.jump_host ∧ strip p.extra_args = p.extra_args :=
    fun p hp => ((h p hp).2.2)
  have key : load_profiles (.parsed (save_profiles C)) = C := by
    simp only [load_profiles, save_profiles, parseItems_map_asdict hstrip]
    exact List.filter_eq_self.mpr fun p hp => by
      simp [bne_iff_ne, (h p hp).1, (h p hp).2.1]
  exact ⟨key, by rw [key]⟩

/-- C3 witness. -/
theorem save_load_roundtrip_witness :
    load_profiles (.parsed (save_profiles
      [{ name := "web1", host := "10.0.0.5", user := "alice", port := 2222,
         identity_file := "/home/a/.ssh/id", jump_host := "", extra_args := "-A" }]))
      = [{ name := "web1", host := "10.0.0.5", user := "alice", port := 2222,
           identity_file := "/home/a/.ssh/id", jump_host := "", extra_args := "-A" }] ∧
    save_profiles (load_profiles (.parsed (save_profiles
      [{ name := "web1", host := "10.0.0.5", user := "alice", port := 2222,
         identity_file := "/home/a/.ssh/id", jump_host := "", extra_args := "-A" }])))
      = save_profiles
        [{ name := "web1", host := "10.0.0.5", user := "alice", port := 2222,
           identity_file := "/home/a/.ssh/id", jump_host := "", extra_args := "-A" }] :=
  save_load_roundtrip
    [{ name := "web1", host := "10.0.0.5", user := "alice", port := 2222,
       identity_file := "/home/a/.ssh/id", jump_host := "", extra_args := "-A" }]
    (by decide)

/-- `shlex_quote` from the source: minimal single-quote shell quoting
(wrap in single quotes, turning each embedded quote into the
quote-doublequote-quote-doublequote-quote sequence). -/
def shlex_quote (s : String) : String :=
  "\x27" ++ s.replace "\x27" "\x27\"\x27\"\x27" ++ "\x27"

/-- The ordered candidate table of `pick_terminal_command`: probe name and
the argv that runs `command_str` in that terminal. -/
def candidates (command_str : String) : List (String × List String) :=
  [("gnome-terminal", ["gnome-terminal", "--", "bash", "-lc", command_str]),
   ("konsole", ["konsole", "-e", "bash", "-lc", command_str]),
   ("xfce4-terminal", ["xfce4-terminal", "-e", "bash -lc " ++ shlex_quote command_str]),
   ("xterm", ["xterm", "-e", "bash", "-lc", command_str]),
   ("kitty", ["kitty", "bash", "-lc", command_str]),
   ("alacritty", ["alacritty", "-e", "bash", "-lc", command_str]),
   ("wezterm", ["wezterm", "start", "--", "bash", "-lc", command_str])]

/-- The probing loop: first candidate whose executable `shutil.which`
finds (the environment is abstracted as the predicate `which`). -/
def firstFound (which : String → Bool) :
    List (String × List String) → Option (List String)
  | [] => none
  | (exe, argv) :: rest => if which exe then some argv else firstFound which rest

/-- `pick_terminal_command`: argv for the first available terminal, or
`none` when no candidate is on the search path. -/
def pick_terminal_command (which : String → Bool) (command_str : String) :
    Option (List String) :=
  firstFound which (candidates command_str)

/-- C6: the candidates are probed in the fixed priority order
gnome-terminal, konsole, xfce4-terminal, xterm, kitty, alacritty, wezterm;
an environment exposing exactly `xterm` yields argv
`["xterm", "-e", "bash", "-lc", <command>]`; an environment with none of
the seven candidates yields no argv. -/
theorem pick_terminal_priority :
    (∀ cmd, (candidates cmd).map Prod.fst
      = ["gnome-terminal", "konsole", "xfce4-terminal", "xterm", "kitty",
         "alacritty", "wezterm"]) ∧
    (∀ (which : String → Bool) cmd, (∀ e, which e = (e == "xterm")) →
      pick_terminal_command which cmd = some ["xterm", "-e", "bash", "-lc", cmd]) ∧
    (∀ (which : String → Bool) cmd,
      (∀ e ∈ ["gnome-terminal", "konsole", "xfce4-terminal", "xterm", "kitty",
              "alacritty", "wezterm"], which e = false) →
      pick_terminal_command which cmd = none) := by
  refine ⟨fun cmd => rfl, ?_, ?_⟩
  · intro which cmd h
    have hw : which = fun e => e == "xterm" := funext h
    subst hw
    rfl
  · intro which cmd h
    have h1 := h "gnome-terminal" (by simp)
    have h2 := h "konsole" (by simp)
    have h3 := h "xfce4-terminal" (by simp)
    have h4 := h "xterm" (by simp)
    have h5 := h "kitty" (by simp)
    have h6 := h "alacritty" (by simp)
    have h7 := h "wezterm" (by simp)
    simp [pick_terminal_command, candidates, firstFound, h1, h2, h3, h4, h5, h6, h7]

/-- C6 witness. -/
theorem pick_terminal_priority_witness :
    pick_terminal_command (fun e => e == "xterm") "ssh h"
      = some ["xterm", "-e", "bash", "-lc", "ssh h"] ∧
    pick_terminal_command (fun _ => false) "ssh h" = none :=
  ⟨pick_terminal_priority.2.1 (fun e => e == "xterm") "ssh h" (fun _ => rfl),
   pick_terminal_priority.2.2 (fun _ => false) "ssh h" (fun _ _ => rfl)⟩

/-- `duplicate_profile` on the in-memory collection: clone the selected
entry, append `" (copy)"` to the clone's name, append the clone. -/
def duplicate_profile (profiles : List SSHProfile) (p : SSHProfile) :
    List SSHProfile :=
  profiles ++ [{ p with name := p.name ++ " (copy)" }]

/-- C7: duplicating a profile `p` of the collection appends one new entry
whose fields all equal `p`'s except the name, which is `p.name`
followed by `" (copy)"`; every existing entry is unchanged and keeps its
position. -/
theorem duplicate_appends_copy (ps : List SSHProfile) (p : SSHProfile)
    (_hmem : p ∈ ps) :
    (duplicate_profile ps p).length = ps.length + 1 ∧
    (∀ i, i < ps.length → (duplicate_profile ps p)[i]? = ps[i]?) ∧
    (duplicate_profile ps p)[ps.length]?
      = some { p with name := p.name ++ " (copy)" } := by
  refine ⟨by simp [duplicate_profile], ?_, ?_⟩
  · intro i hi
    simp [duplicate_profile, List.getElem?_append, hi]
  · simp [duplicate_profile]

/-- C7 witness. -/
theorem duplicate_appends_copy_witness :
    ({ name := "a", host := "b" : SSHProfile } ∈
        [{ name := "a", host := "b" : SSHProfile }]) ∧
    (duplicate_profile [{ name := "a", host := "b" }] { name := "a", host := "b" }).length
      = 1 + 1 ∧
    (duplicate_profile [{ name := "a", host := "b" }] { name := "a", host := "b" })[1]?
      = some { name := "a (copy)", host := "b" } := by
  have h := duplicate_appends_copy [{ name := "a", host := "b" }]
    { name := "a", host := "b" } (by decide)
  exact ⟨by decide, h.1, h.2.2⟩

/-- The raw texts of the profile dialog's inputs (the spin box clamps the
port to 1–65535 on entry). -/
structure DialogFields where
  name : String
  host : String
  user : String
  port : Int
  identity : String
  jump : String
  extra : String

/-- `ProfileDialog.get_profile`: strip name and host, reject (return
`None` after a warning box) when either is empty, else build the profile
from the stripped inputs. -/
def get_profile (d : DialogFields) : Option SSHProfile :=
  let name := strip d.name
  let host := strip d.host
  if name = "" ∨ host = "" then none
  else some { name := name, host := host, user := strip d.user, port := d.port,
              identity_file := strip d.identity, jump_host := strip d.jump,
              extra_args := strip d.extra }

/-- The state `MainWindow.add_profile` acts on: the in-memory collection
and the persisted document. -/
structure AppState where
  profiles : List SSHProfile
  dataFile : FileState

/-- `MainWindow.add_profile` on an accepted dialog: if `get_profile`
rejects, return with nothing changed; otherwise append and save the full
collection. -/
def add_profile (st : AppState) (d : DialogFields) : AppState :=
  match get_profile d with
  | none => st
  | some p =>
    let ps := st.profiles ++ [p]
    { profiles := ps, dataFile := .parsed (save_profiles ps) }

/-- C8: when the submitted fields fail validation (stripped name or host
empty), add is rejected before any mutation: the in-memory collection is
untouched and the persisted document is not written. -/
theorem add_rejected_before_mutation (st : AppState) (d : DialogFields)
    (h : strip d.name = "" ∨ strip d.host = "") :
    (add_profile st d).profiles = st.profiles ∧
    (add_profile st d).dataFile = st.dataFile := by
  have : get_profile d = none := by
    simp only [get_profile]
    rw [if_pos h]
  simp [add_profile, this]

/-- C8 witness (a host of only spaces strips to empty and is rejected). -/
theorem add_rejected_before_mutation_witness :
    (strip "web1" = "" ∨ strip "  " = "") ∧
    (add_profile { profiles := [], dataFile := .absent }
        { name := "web1", host := "  ", user := "", port := 22,
          identity := "", jump := "", extra := "" }).profiles = [] ∧
    (add_profile { profiles := [], dataFile := .absent }
        { name := "web1", host := "  ", user := "", port := 22,
          identity := "", jump := "", extra := "" }).dataFile = .absent :=
  ⟨Or.inr (by decide),
   (add_rejected_before_mutation { profiles := [], dataFile := .absent }
      { name := "web1", host := "  ", user := "", port := 22,
        identity := "", jump := "", extra := "" } (Or.inr (by decide))).1,
   (add_rejected_before_mutation { profiles := [], dataFile := .absent }
      { name := "web1", host := "  ", user := "", port := 22,
        identity := "", jump := "", extra := "" } (Or.inr (by decide))).2⟩
